import Mathlib

set_option maxRecDepth 8000

namespace Rufi

/-- Kind of a launchable item, from `ItemType` in `src/commands.rs` (and the
identical declaration in `src/main.rs`). -/
inductive ItemType where
  | Command : ItemType
  | Application : ItemType
deriving DecidableEq

/-- A candidate item, from `LaunchItem` in `src/commands.rs` (and the identical
declaration in `src/main.rs`). -/
structure LaunchItem where
  name : String
  display_name : String
  command : String
  description : Option String
  icon : Option String
  item_type : ItemType
deriving DecidableEq

/-- Model of Rust `str::to_lowercase` as used on the ASCII queries, names and
commands the launcher compares: lowercase every character. -/
def toLowerList (s : String) : List Char := s.data.map Char.toLower

/-- Model of Rust `str::contains(&str)`: the needle occurs as a contiguous
substring of the haystack. -/
def containsSub (hay needle : List Char) : Bool :=
  match hay with
  | [] => needle.isEmpty
  | c :: t => needle.isPrefixOf (c :: t) || containsSub t needle

/-- The per-kind score bonus. Models the inline
`match item.item_type { Application => 50, Command => 0 }` that appears in
`fuzzy_score` in both `src/fuzzy.rs` (via `APPLICATION_TYPE_BONUS`) and
`src/main.rs` (as the literal `50`). -/
def typeBonus : ItemType → Int
  | ItemType.Application => 50
  | ItemType.Command => 0

/-- Models the description tier test of `fuzzy_score` in both files:
`if let Some(desc) = &item.description { desc.to_lowercase().contains(&query) }`,
false when there is no description. -/
def descriptionMatches (q : List Char) (item : LaunchItem) : Bool :=
  match item.description with
  | some d => containsSub (toLowerList d) q
  | none => false

/-- Stable insertion of a scored item into a list sorted by descending score:
the item is placed before the first element whose score is less than or equal
to its own, so it stays behind every strictly-higher score and ahead of
equal scores that came later in the input. -/
def insertDesc (x : LaunchItem × Int) : List (LaunchItem × Int) → List (LaunchItem × Int)
  | [] => [x]
  | y :: ys => if y.2 ≤ x.2 then x :: y :: ys else y :: insertDesc x ys

/-- Model of `scored.sort_by(|a, b| b.1.cmp(&a.1))` in `fuzzy_search` (both
files): Rust `slice::sort_by` is a stable sort, so the call sorts by
descending score keeping the input order of equal scores.  Implemented as a
stable insertion sort; sortedness and stability are proved below, which pins
the function down uniquely. -/
def sortDesc : List (LaunchItem × Int) → List (LaunchItem × Int)
  | [] => []
  | x :: xs => insertDesc x (sortDesc xs)

namespace Fuzzy

/-- Constant from `src/fuzzy.rs`. -/
def EXACT_MATCH_BONUS : Int := 2000
/-- Constant from `src/fuzzy.rs`. -/
def NAME_STARTS_WITH_BONUS : Int := 1500
/-- Constant from `src/fuzzy.rs`. -/
def COMMAND_STARTS_WITH_BONUS : Int := 1400
/-- Constant from `src/fuzzy.rs`. -/
def NAME_CONTAINS_BONUS : Int := 1000
/-- Constant from `src/fuzzy.rs`. -/
def COMMAND_CONTAINS_BONUS : Int := 900
/-- Constant from `src/fuzzy.rs`. -/
def DESCRIPTION_CONTAINS_BONUS : Int := 600
/-- Constant from `src/fuzzy.rs`. -/
def APPLICATION_TYPE_BONUS : Int := 50

/-- Loop body of `fuzzy_match_score` in `src/fuzzy.rs` (lines 86-104): scan the
target left to right; `current` is the query character currently searched for,
`rest` the remaining query characters, `i` the index of the next target
character, `lastMatch` the index of the previous match (0 initially),
`consecutive` the current run counter and `score` the accumulated score. -/
def fuzzy_match_go (current : Char) (rest : List Char) (score : Int)
    (lastMatch : Nat) (consecutive : Int) (i : Nat) : List Char → Option Int
  | [] => none
  | tc :: ts =>
    if tc = current then
      let gap : Nat := i - lastMatch
      let score2 : Int := if gap = 1 then score + (consecutive + 1) * 10 else score - (gap : Int)
      let consecutive2 : Int := if gap = 1 then consecutive + 1 else 0
      match rest with
      | [] => some score2
      | c :: cs => fuzzy_match_go c cs score2 i consecutive2 (i + 1) ts
    else
      fuzzy_match_go current rest score lastMatch consecutive (i + 1) ts

/-- Function `fuzzy_match_score` from `src/fuzzy.rs` (lines 79-107): subsequence match
of `query` inside `target`, seeded at score 200; `None` when the query is
empty (the first `next()?` fails) or the target is exhausted before every
query character is matched. -/
def fuzzy_match_score (query target : List Char) : Option Int :=
  match query with
  | [] => none
  | c :: cs => fuzzy_match_go c cs 200 0 0 0 target

/-- The final fuzzy tier of `fuzzy_score` in `src/fuzzy.rs` (lines 67-76): fold
over `[name, command]`, keeping the best bonus-adjusted subsequence score. -/
def fuzzy_tail (q name command : List Char) (type_bonus : Int) : Option Int :=
  [name, command].foldl
    (fun best target =>
      match fuzzy_match_score q target with
      | some score =>
        some (match best with
          | none => score + type_bonus
          | some s => max s (score + type_bonus))
      | none => best)
    none

/-- Function `fuzzy_score` from `src/fuzzy.rs` (lines 26-77): the ordered cascade of
scoring tiers.  Query length is the length of the lowercased query, matching
`query.len()` on the ASCII inputs the launcher handles. -/
def fuzzy_score (query : String) (item : LaunchItem) : Option Int :=
  if query = "" then some 0
  else
    let q := toLowerList query
    let name := toLowerList item.display_name
    let command := toLowerList item.command
    let type_bonus := typeBonus item.item_type
    if name = q ∨ command = q then
      some (EXACT_MATCH_BONUS + type_bonus)
    else if q.isPrefixOf name then
      some (NAME_STARTS_WITH_BONUS - (q.length : Int) + type_bonus)
    else if q.isPrefixOf command then
      some (COMMAND_STARTS_WITH_BONUS - (q.length : Int) + type_bonus)
    else if containsSub name q then
      some (NAME_CONTAINS_BONUS - (q.length : Int) + type_bonus)
    else if containsSub command q then
      some (COMMAND_CONTAINS_BONUS - (q.length : Int) + type_bonus)
    else if descriptionMatches q item then
      some (DESCRIPTION_CONTAINS_BONUS - (q.length : Int) + type_bonus)
    else
      fuzzy_tail q name command type_bonus

/-- Function `fuzzy_search` from `src/fuzzy.rs` (lines 11-24): score every item, drop
the non-matching ones, stable-sort by descending score, truncate. -/
def fuzzy_search (query : String) (items : List LaunchItem) (max_results : Nat) :
    List (LaunchItem × Int) :=
  let scored := items.filterMap
    (fun item => (fuzzy_score query item).map (fun score => (item, score)))
  (sortDesc scored).take max_results

end Fuzzy

namespace MainSrc

/-- Loop body of the `fuzzy_match_score` copy in `src/main.rs` (lines 335-353),
token-for-token the same algorithm as the one in `src/fuzzy.rs`. -/
def fuzzy_match_go (current : Char) (rest : List Char) (score : Int)
    (lastMatch : Nat) (consecutive : Int) (i : Nat) : List Char → Option Int
  | [] => none
  | tc :: ts =>
    if tc = current then
      let gap : Nat := i - lastMatch
      let score2 : Int := if gap = 1 then score + (consecutive + 1) * 10 else score - (gap : Int)
      let consecutive2 : Int := if gap = 1 then consecutive + 1 else 0
      match rest with
      | [] => some score2
      | c :: cs => fuzzy_match_go c cs score2 i consecutive2 (i + 1) ts
    else
      fuzzy_match_go current rest score lastMatch consecutive (i + 1) ts

/-- Function `fuzzy_match_score` from `src/main.rs` (lines 328-356). -/
def fuzzy_match_score (query target : List Char) : Option Int :=
  match query with
  | [] => none
  | c :: cs => fuzzy_match_go c cs 200 0 0 0 target

/-- The final fuzzy tier of `fuzzy_score` in `src/main.rs` (lines 316-325). -/
def fuzzy_tail (q name command : List Char) (type_bonus : Int) : Option Int :=
  [name, command].foldl
    (fun best target =>
      match fuzzy_match_score q target with
      | some score =>
        some (match best with
          | none => score + type_bonus
          | some s => max s (score + type_bonus))
      | none => best)
    none

/-- Function `fuzzy_score` from `src/main.rs` (lines 269-326); the tier constants are
written as literals there (`2000`, `1500`, `1400`, `1000`, `900`, `600`). -/
def fuzzy_score (query : String) (item : LaunchItem) : Option Int :=
  if query = "" then some 0
  else
    let q := toLowerList query
    let name := toLowerList item.display_name
    let command := toLowerList item.command
    let type_bonus := typeBonus item.item_type
    if name = q ∨ command = q then
      some (2000 + type_bonus)
    else if q.isPrefixOf name then
      some (1500 - (q.length : Int) + type_bonus)
    else if q.isPrefixOf command then
      some (1400 - (q.length : Int) + type_bonus)
    else if containsSub name q then
      some (1000 - (q.length : Int) + type_bonus)
    else if containsSub command q then
      some (900 - (q.length : Int) + type_bonus)
    else if descriptionMatches q item then
      some (600 - (q.length : Int) + type_bonus)
    else
      fuzzy_tail q name command type_bonus

/-- Function `fuzzy_search` from `src/main.rs` (lines 358-367). -/
def fuzzy_search (query : String) (items : List LaunchItem) (max_results : Nat) :
    List (LaunchItem × Int) :=
  let scored := items.filterMap
    (fun item => (fuzzy_score query item).map (fun score => (item, score)))
  (sortDesc scored).take max_results

end MainSrc

/-- The item cache from `src/commands.rs` (lines 27-54); `src/main.rs` (lines
119-146) declares a token-for-token identical copy.  `Instant` is modelled as
an integer clock value and `Duration` as a number of seconds, so
`last_updated.elapsed()` at clock `now` is `now - last_updated`. -/
structure ItemCache where
  items : List LaunchItem
  last_updated : Int
  timeout : Int

/-- Constructor `ItemCache::new(timeout_secs)` called at clock `now`: empty items, a
timestamp `timeout_secs + 1` seconds in the past, staleness `timeout_secs`. -/
def ItemCache.new (now : Int) (timeout_secs : Nat) : ItemCache :=
  { items := []
    last_updated := now - ((timeout_secs : Int) + 1)
    timeout := (timeout_secs : Int) }

/-- Method `ItemCache::is_expired(&self)` evaluated at clock `now`:
`self.last_updated.elapsed() > self.timeout`. -/
def ItemCache.is_expired (c : ItemCache) (now : Int) : Bool :=
  decide (c.timeout < now - c.last_updated)

/-- Method `ItemCache::update(&mut self, items)` performed at clock `now`. -/
def ItemCache.update (c : ItemCache) (items : List LaunchItem) (now : Int) : ItemCache :=
  { c with items := items, last_updated := now }

/-- Method `ItemCache::get(&self)`. -/
def ItemCache.get (c : ItemCache) : List LaunchItem := c.items

/-- The greedy accumulation loop of `run_ui` in `src/ui.rs` (lines 389-398):
count rows, in order, while the running height total stays within the budget;
stop at the first row that does not fit.  `cur` is the accumulated height so
far (`current_display_height`). -/
def greedyVisible (budget : Nat) (cur : Nat) : List Nat → Nat
  | [] => 0
  | h :: hs => if cur + h ≤ budget then 1 + greedyVisible budget (cur + h) hs else 0

/-- The viewport computation of `run_ui` in `src/ui.rs` (lines 381-411),
returning `(sel, start_index, max_visible)`:
clamp `sel` with `sel.min(len.saturating_sub(1))`; count the rows from
`start` that fit in the budget, at least 1 (`dynamic_max_visible.max(1)`);
scroll down when `sel >= start_index + max_visible`, up when
`sel < start_index`; finally clamp with
`start_index.min(len.saturating_sub(max_visible).max(0))`. -/
def computeViewport (heights : List Nat) (budget : Nat) (sel start : Nat) :
    Nat × Nat × Nat :=
  let len := heights.length
  let sel2 := min sel (len - 1)
  let visible := max (greedyVisible budget 0 (heights.drop start)) 1
  let start2 :=
    if start + visible ≤ sel2 then sel2 - visible + 1
    else if sel2 < start then sel2
    else start
  let start3 := min start2 (max (len - visible) 0)
  (sel2, start3, visible)

/-- The Down-arrow handler of `run_ui` in `src/ui.rs` (lines 592-597):
`if !filtered.is_empty() && sel + 1 < filtered.len() { sel += 1 }`. -/
def selectNextUi (len sel : Nat) : Nat :=
  if len ≠ 0 ∧ sel + 1 < len then sel + 1 else sel

/-- The Down-arrow handler of `main` in `src/main.rs` (lines 745-750):
`if !filtered.is_empty() && sel + 1 < filtered.len().min(max_visible) { sel += 1 }`. -/
def selectNextMain (len max_visible sel : Nat) : Nat :=
  if len ≠ 0 ∧ sel + 1 < min len max_visible then sel + 1 else sel

/-- The Up-arrow handler, identical in `src/ui.rs` (lines 586-591) and
`src/main.rs` (lines 739-744): `if sel > 0 { sel -= 1 }`. -/
def selectPrevEvent (sel : Nat) : Nat :=
  if 0 < sel then sel - 1 else sel

/-- The mutable state of the `run_ui` event loop that the query-mutation
handlers touch: the query text, the selection index, and the viewport start
offset (`query`, `sel`, `start_index` in `src/ui.rs`). -/
structure UiState where
  query : List Char
  sel : Nat
  start_index : Nat
deriving DecidableEq

/-- The Backspace handler of `run_ui` in `src/ui.rs` (lines 598-603):
`query.pop(); sel = 0; start_index = 0;`. -/
def backspaceEvent (s : UiState) : UiState :=
  { query := s.query.dropLast, sel := 0, start_index := 0 }

/-- The character-append handler of `run_ui` in `src/ui.rs` (lines 608-620):
`query.push_str(ch); sel = 0;` — note that `start_index` is not touched. -/
def appendEvent (s : UiState) (ch : List Char) : UiState :=
  { query := s.query ++ ch, sel := 0, start_index := s.start_index }

/-- Sample Command-kind item named "firefox", as in the tier example of the spec. -/
def firefoxItem : LaunchItem :=
  { name := "firefox", display_name := "firefox", command := "firefox"
    description := none, icon := none, item_type := ItemType.Command }

/-- Sample Command-kind item named "chrome"; it matches no tier for the query
"fire" (no subsequence "fire" inside "chrome"). -/
def chromeItem : LaunchItem :=
  { name := "chrome", display_name := "chrome", command := "chrome"
    description := none, icon := none, item_type := ItemType.Command }

/-- Sample Application-kind item named "code". -/
def appCode : LaunchItem :=
  { name := "code", display_name := "code", command := "code"
    description := none, icon := none, item_type := ItemType.Application }

/-- Sample Command-kind item named "code". -/
def cmdCode : LaunchItem :=
  { name := "code", display_name := "code", command := "code"
    description := none, icon := none, item_type := ItemType.Command }

/-- A query of 14 copies of the letter a followed by 14 copies of the letter
b, used to exercise the unbounded consecutive-run bonus of the matcher. -/
def longRunQuery : String := "aaaaaaaaaaaaaabbbbbbbbbbbbbb"

/-- An item whose display name interrupts `longRunQuery` with a single letter
x, so only the subsequence tier matches — with two 13-step consecutive runs. -/
def longRunFuzzyItem : LaunchItem :=
  { name := "trap", display_name := "aaaaaaaaaaaaaaxbbbbbbbbbbbbbb", command := "zzzz"
    description := none, icon := none, item_type := ItemType.Command }

/-- An item whose display name equals `longRunQuery` exactly. -/
def longRunExactItem : LaunchItem :=
  { name := "exact", display_name := "aaaaaaaaaaaaaabbbbbbbbbbbbbb", command := "zzzz"
    description := none, icon := none, item_type := ItemType.Command }

theorem mem_insertDesc (x a : LaunchItem × Int) :
    ∀ l : List (LaunchItem × Int), a ∈ insertDesc x l ↔ a = x ∨ a ∈ l
  | [] => by simp [insertDesc]
  | y :: ys => by
    unfold insertDesc
    by_cases hc : y.2 ≤ x.2
    · simp [hc]
    · simp only [if_neg hc, List.mem_cons, mem_insertDesc x a ys]
      tauto

theorem insertDesc_perm (x : LaunchItem × Int) :
    ∀ l : List (LaunchItem × Int), List.Perm (insertDesc x l) (x :: l)
  | [] => List.Perm.refl _
  | y :: ys => by
    unfold insertDesc
    by_cases hc : y.2 ≤ x.2
    · rw [if_pos hc]
    · rw [if_neg hc]
      exact ((insertDesc_perm x ys).cons y).trans (List.Perm.swap x y ys)

theorem sortDesc_perm : ∀ l : List (LaunchItem × Int), List.Perm (sortDesc l) l
  | [] => List.Perm.refl _
  | x :: xs =>
    (insertDesc_perm x (sortDesc xs)).trans ((sortDesc_perm xs).cons x)

theorem insertDesc_pairwise (x : LaunchItem × Int) :
    ∀ l : List (LaunchItem × Int),
      l.Pairwise (fun a b => b.2 ≤ a.2) →
      (insertDesc x l).Pairwise (fun a b => b.2 ≤ a.2)
  | [], _ => by simp [insertDesc]
  | y :: ys, h => by
    rw [List.pairwise_cons] at h
    obtain ⟨hy, hys⟩ := h
    unfold insertDesc
    by_cases hc : y.2 ≤ x.2
    · rw [if_pos hc]
      refine List.Pairwise.cons ?_ (List.Pairwise.cons hy hys)
      intro z hz
      rcases List.mem_cons.mp hz with hz | hz
      · exact hz ▸ hc
      · exact le_trans (hy z hz) hc
    · rw [if_neg hc]
      refine List.Pairwise.cons ?_ (insertDesc_pairwise x ys hys)
      intro z hz
      rcases (mem_insertDesc x z ys).mp hz with hz | hz
      · subst hz
        omega
      · exact hy z hz

theorem sortDesc_pairwise :
    ∀ l : List (LaunchItem × Int), (sortDesc l).Pairwise (fun a b => b.2 ≤ a.2)
  | [] => List.Pairwise.nil
  | x :: xs => insertDesc_pairwise x (sortDesc xs) (sortDesc_pairwise xs)

theorem filter_insertDesc (s : Int) (x : LaunchItem × Int) :
    ∀ l : List (LaunchItem × Int),
      (insertDesc x l).filter (fun p => decide (p.2 = s))
        = if x.2 = s then x :: l.filter (fun p => decide (p.2 = s))
          else l.filter (fun p => decide (p.2 = s))
  | [] => by
    by_cases hx : x.2 = s <;> simp [insertDesc, List.filter_cons, hx]
  | y :: ys => by
    unfold insertDesc
    by_cases hc : y.2 ≤ x.2
    · rw [if_pos hc]
      by_cases hx : x.2 = s <;> simp [List.filter_cons, hx]
    · rw [if_neg hc]
      rw [List.filter_cons, filter_insertDesc s x ys]
      by_cases hx : x.2 = s
      · have hy : ¬ y.2 = s := by omega
        simp [hx, hy, List.filter_cons]
      · simp [hx, List.filter_cons]

theorem sortDesc_filter (s : Int) :
    ∀ l : List (LaunchItem × Int),
      (sortDesc l).filter (fun p => decide (p.2 = s)) = l.filter (fun p => decide (p.2 = s))
  | [] => rfl
  | x :: xs => by
    show (insertDesc x (sortDesc xs)).filter (fun p => decide (p.2 = s)) = _
    rw [filter_insertDesc s x (sortDesc xs), sortDesc_filter s xs]
    by_cases hx : x.2 = s <;> simp [hx, List.filter_cons]

theorem greedyVisible_sum_le (budget : Nat) :
    ∀ (hs : List Nat) (cur : Nat), cur ≤ budget →
      cur + (hs.take (greedyVisible budget cur hs)).sum ≤ budget
  | [], cur, h => by simpa [greedyVisible] using h
  | h :: hs, cur, hcur => by
    unfold greedyVisible
    by_cases hfit : cur + h ≤ budget
    · rw [if_pos hfit]
      have := greedyVisible_sum_le budget hs (cur + h) hfit
      rw [show 1 + greedyVisible budget (cur + h) hs
            = greedyVisible budget (cur + h) hs + 1 by omega]
      simp only [List.take_succ_cons, List.sum_cons]
      omega
    · rw [if_neg hfit]
      simpa using hcur

theorem greedyVisible_tight (budget : Nat) :
    ∀ (hs : List Nat) (cur : Nat),
      greedyVisible budget cur hs < hs.length →
      budget < cur + (hs.take (greedyVisible budget cur hs + 1)).sum
  | [], cur, h => by simp [greedyVisible] at h
  | h :: hs, cur, hlt => by
    unfold greedyVisible at hlt ⊢
    by_cases hfit : cur + h ≤ budget
    · rw [if_pos hfit] at hlt ⊢
      simp only [List.length_cons] at hlt
      have hlt2 : greedyVisible budget (cur + h) hs < hs.length := by omega
      have hrec := greedyVisible_tight budget hs (cur + h) hlt2
      rw [show 1 + greedyVisible budget (cur + h) hs + 1
            = (greedyVisible budget (cur + h) hs + 1) + 1 by omega]
      simp only [List.take_succ_cons, List.sum_cons]
      omega
    · rw [if_neg hfit] at hlt ⊢
      simp only [List.take_succ_cons, List.take_zero, List.sum_cons, List.sum_nil]
      omega

theorem fuzzy_match_go_isSome :
    ∀ (ts : List Char) (c : Char) (cs : List Char) (s : Int) (lm : Nat)
      (con : Int) (i : Nat),
      (Fuzzy.fuzzy_match_go c cs s lm con i ts).isSome = true ↔ List.Sublist (c :: cs) ts := by
  intro ts
  induction ts with
  | nil =>
    intro c cs s lm con i
    simp [Fuzzy.fuzzy_match_go]
  | cons tc ts ih =>
    intro c cs s lm con i
    by_cases h : tc = c
    · subst h
      cases cs with
      | nil =>
        have hred : Fuzzy.fuzzy_match_go tc [] s lm con i (tc :: ts)
            = some (if i - lm = 1 then s + (con + 1) * 10 else s - ((i - lm : Nat) : Int)) := by
          simp [Fuzzy.fuzzy_match_go]
        rw [hred]
        simp only [Option.isSome_some, true_iff]
        exact List.Sublist.cons₂ tc (List.nil_sublist ts)
      | cons c2 cs2 =>
        have hred : Fuzzy.fuzzy_match_go tc (c2 :: cs2) s lm con i (tc :: ts)
            = Fuzzy.fuzzy_match_go c2 cs2
                (if i - lm = 1 then s + (con + 1) * 10 else s - ((i - lm : Nat) : Int)) i
                (if i - lm = 1 then con + 1 else 0) (i + 1) ts := by
          simp [Fuzzy.fuzzy_match_go]
        rw [hred, ih]
        exact (List.cons_sublist_cons).symm
    · simp only [Fuzzy.fuzzy_match_go, if_neg h]
      rw [ih c cs s lm con (i + 1)]
      constructor
      · intro hsub
        exact hsub.cons tc
      · intro hsub
        cases hsub with
        | cons _ hsub => exact hsub
        | cons₂ hsub => exact absurd rfl h

/-- Claim C1: for every non-empty query, `fuzzy_score` is decided by the first
matching tier of the ordered cascade — case-insensitive exact match on display
name or command gives `2000 + typeBonus`, name starts-with gives
`1500 - len(query) + typeBonus`, command starts-with `1400 - len(query) +
typeBonus`, name contains `1000 - len(query) + typeBonus`, command contains
`900 - len(query) + typeBonus`, description contains `600 - len(query) +
typeBonus`, and only otherwise is the subsequence fuzzy tier used; in
particular "fire" against the Command-kind item "firefox" scores 1496 via the
name-prefix tier. -/
theorem c1_tier_cascade (query : String) (item : LaunchItem) (hq : query ≠ "") :
    (toLowerList item.display_name = toLowerList query ∨
        toLowerList item.command = toLowerList query →
      Fuzzy.fuzzy_score query item = some (2000 + typeBonus item.item_type)) ∧
    (¬(toLowerList item.display_name = toLowerList query ∨
        toLowerList item.command = toLowerList query) →
      (toLowerList query).isPrefixOf (toLowerList item.display_name) = true →
      Fuzzy.fuzzy_score query item
        = some (1500 - ((toLowerList query).length : Int) + typeBonus item.item_type)) ∧
    (¬(toLowerList item.display_name = toLowerList query ∨
        toLowerList item.command = toLowerList query) →
      (toLowerList query).isPrefixOf (toLowerList item.display_name) = false →
      (toLowerList query).isPrefixOf (toLowerList item.command) = true →
      Fuzzy.fuzzy_score query item
        = some (1400 - ((toLowerList query).length : Int) + typeBonus item.item_type)) ∧
    (¬(toLowerList item.display_name = toLowerList query ∨
        toLowerList item.command = toLowerList query) →
      (toLowerList query).isPrefixOf (toLowerList item.display_name) = false →
      (toLowerList query).isPrefixOf (toLowerList item.command) = false →
      containsSub (toLowerList item.display_name) (toLowerList query) = true →
      Fuzzy.fuzzy_score query item
        = some (1000 - ((toLowerList query).length : Int) + typeBonus item.item_type)) ∧
    (¬(toLowerList item.display_name = toLowerList query ∨
        toLowerList item.command = toLowerList query) →
      (toLowerList query).isPrefixOf (toLowerList item.display_name) = false →
      (toLowerList query).isPrefixOf (toLowerList item.command) = false →
      containsSub (toLowerList item.display_name) (toLowerList query) = false →
      containsSub (toLowerList item.command) (toLowerList query) = true →
      Fuzzy.fuzzy_score query item
        = some (900 - ((toLowerList query).length : Int) + typeBonus item.item_type)) ∧
    (¬(toLowerList item.display_name = toLowerList query ∨
        toLowerList item.command = toLowerList query) →
      (toLowerList query).isPrefixOf (toLowerList item.display_name) = false →
      (toLowerList query).isPrefixOf (toLowerList item.command) = false →
      containsSub (toLowerList item.display_name) (toLowerList query) = false →
      containsSub (toLowerList item.command) (toLowerList query) = false →
      descriptionMatches (toLowerList query) item = true →
      Fuzzy.fuzzy_score query item
        = some (600 - ((toLowerList query).length : Int) + typeBonus item.item_type)) ∧
    (¬(toLowerList item.display_name = toLowerList query ∨
        toLowerList item.command = toLowerList query) →
      (toLowerList query).isPrefixOf (toLowerList item.display_name) = false →
      (toLowerList query).isPrefixOf (toLowerList item.command) = false →
      containsSub (toLowerList item.display_name) (toLowerList query) = false →
      containsSub (toLowerList item.command) (toLowerList query) = false →
      descriptionMatches (toLowerList query) item = false →
      Fuzzy.fuzzy_score query item
        = Fuzzy.fuzzy_tail (toLowerList query) (toLowerList item.display_name)
            (toLowerList item.command) (typeBonus item.item_type)) ∧
    Fuzzy.fuzzy_score "fire" firefoxItem = some 1496 := by
  refine ⟨?_, ?_, ?_, ?_, ?_, ?_, ?_, by decide⟩
  · intro h1
    simp only [Fuzzy.fuzzy_score, if_neg hq]
    rw [if_pos h1]
    rfl
  · intro h1 h2
    simp only [Fuzzy.fuzzy_score, if_neg hq]
    rw [if_neg h1, if_pos h2]
    rfl
  · intro h1 h2 h3
    simp only [Fuzzy.fuzzy_score, if_neg hq]
    rw [if_neg h1, if_neg (by simp [h2]), if_pos h3]
    rfl
  · intro h1 h2 h3 h4
    simp only [Fuzzy.fuzzy_score, if_neg hq]
    rw [if_neg h1, if_neg (by simp [h2]), if_neg (by simp [h3]), if_pos h4]
    rfl
  · intro h1 h2 h3 h4 h5
    simp only [Fuzzy.fuzzy_score, if_neg hq]
    rw [if_neg h1, if_neg (by simp [h2]), if_neg (by simp [h3]), if_neg (by simp [h4]),
      if_pos h5]
    rfl
  · intro h1 h2 h3 h4 h5 h6
    simp only [Fuzzy.fuzzy_score, if_neg hq]
    rw [if_neg h1, if_neg (by simp [h2]), if_neg (by simp [h3]), if_neg (by simp [h4]),
      if_neg (by simp [h5]), if_pos h6]
    rfl
  · intro h1 h2 h3 h4 h5 h6
    simp only [Fuzzy.fuzzy_score, if_neg hq]
    rw [if_neg h1, if_neg (by simp [h2]), if_neg (by simp [h3]), if_neg (by simp [h4]),
      if_neg (by simp [h5]), if_neg (by simp [h6])]

/-- Witness for C1: at the concrete input of the worked example, the
name-prefix tier fires and evaluates to 1496. -/
theorem c1_tier_cascade_witness :
    Fuzzy.fuzzy_score "fire" firefoxItem
      = some (1500 - ((toLowerList "fire").length : Int) + typeBonus firefoxItem.item_type) ∧
    (1500 - ((toLowerList "fire").length : Int) + typeBonus firefoxItem.item_type : Int)
      = 1496 :=
  ⟨(c1_tier_cascade "fire" firefoxItem (by decide)).2.1 (by decide) (by decide), by decide⟩

/-- Claim C3: the subsequence matcher succeeds exactly when the (non-empty)
query occurs as an ordered subsequence of the target — scanning left to right,
seeding the score at 200, adding `10 * runLength` on a gap of exactly 1 and
subtracting the gap otherwise — and fails with no score when the target is
exhausted first.  "fx" against "firefox" succeeds with 194 (f at index 0, x at
index 6, gap 6); "fx" against "chrome" fails; "ab" against "ab" scores
200 + 10 * 1 = 210 via the consecutive-run bonus. -/
theorem c3_subsequence_match (query target : List Char) :
    ((Fuzzy.fuzzy_match_score query target).isSome = true
        ↔ query ≠ [] ∧ List.Sublist query target) ∧
    Fuzzy.fuzzy_match_score "fx".data "firefox".data = some 194 ∧
    Fuzzy.fuzzy_match_score "fx".data "chrome".data = none ∧
    Fuzzy.fuzzy_match_score "ab".data "ab".data = some 210 := by
  refine ⟨?_, by decide, by decide, by decide⟩
  cases query with
  | nil => simp [Fuzzy.fuzzy_match_score]
  | cons c cs =>
    simp only [Fuzzy.fuzzy_match_score]
    rw [fuzzy_match_go_isSome]
    simp

/-- Witness for C3 at the example inputs of the spec. -/
theorem c3_subsequence_match_witness :
    ("fx".data ≠ [] ∧ List.Sublist "fx".data "firefox".data) ∧
    ¬ ("fx".data ≠ [] ∧ List.Sublist "fx".data "chrome".data) := by
  constructor
  · exact (c3_subsequence_match "fx".data "firefox".data).1.mp (by decide)
  · intro hc
    have h := (c3_subsequence_match "fx".data "chrome".data).1.mpr hc
    simp [(by decide : Fuzzy.fuzzy_match_score "fx".data "chrome".data = none)] at h

/-- Claim C5: `is_expired` is true exactly when the elapsed time since the
last commit strictly exceeds the staleness duration; a fresh cache (timestamp
initialized `timeout + 1` seconds in the past) is expired before any update;
immediately after `update` it is not expired; once strictly more than the
configured duration has elapsed it is expired again. -/
theorem c5_cache_expiry (c : ItemCache) (now t t2 : Int) (ts : Nat)
    (items : List LaunchItem) :
    (c.is_expired now = true ↔ c.timeout < now - c.last_updated) ∧
    (ItemCache.new now ts).is_expired now = true ∧
    ((ItemCache.new now ts).update items t).is_expired t = false ∧
    (((ItemCache.new now ts).update items t).is_expired t2 = true ↔ (ts : Int) < t2 - t) := by
  refine ⟨?_, ?_, ?_, ?_⟩
  · simp [ItemCache.is_expired]
  · simp only [ItemCache.is_expired, ItemCache.new, decide_eq_true_eq]
    omega
  · simp only [ItemCache.is_expired, ItemCache.update, ItemCache.new,
      decide_eq_false_iff_not]
    omega
  · simp [ItemCache.is_expired, ItemCache.update, ItemCache.new]

/-- Counterexample for C6: in the `src/main.rs` event loop the Down handler
does not increment the selection whenever `sel + 1 < len` — with 3 ranked
items, `max_visible = 1` and selection 0, the guard `sel + 1 <
len.min(max_visible)` fails even though `sel + 1 < len` holds. -/
theorem c6_counterexample : (0 + 1 < 3) ∧ selectNextMain 3 1 0 ≠ 0 + 1 := by decide

/-- Claim C6 (amended): in `run_ui` the Down event increments the selection
exactly when `sel + 1 < len`, while in the `src/main.rs` loop it increments
exactly when `sel + 1 < min len max_visible`; the Up event decrements exactly
when `sel > 0`; at each boundary the selection is unchanged (no wraparound). -/
theorem c6_selection_movement (len mv sel : Nat) :
    (selectNextUi len sel = sel + 1 ↔ sel + 1 < len) ∧
    (¬ sel + 1 < len → selectNextUi len sel = sel) ∧
    (0 < sel → selectPrevEvent sel = sel - 1) ∧
    (sel = 0 → selectPrevEvent sel = sel) ∧
    (selectPrevEvent sel < sel ↔ 0 < sel) ∧
    (selectNextMain len mv sel = sel + 1 ↔ sel + 1 < min len mv) ∧
    (¬ sel + 1 < min len mv → selectNextMain len mv sel = sel) := by
  unfold selectNextUi selectNextMain selectPrevEvent
  refine ⟨?_, ?_, ?_, ?_, ?_, ?_, ?_⟩ <;> split_ifs <;> omega

/-- Witness for C6 at concrete boundary and non-boundary inputs. -/
theorem c6_selection_movement_witness :
    selectNextUi 3 0 = 0 + 1 ∧ selectPrevEvent 0 = 0 ∧ selectNextMain 3 1 0 = 0 := by
  have h := c6_selection_movement 3 1 0
  exact ⟨h.1.mpr (by decide), h.2.2.2.1 (by decide), h.2.2.2.2.2.2 (by decide)⟩

/-- Counterexample for C7: appending a character does not reset the viewport
start offset — from `start_index = 2` the append handler of `run_ui` leaves it
at 2, while the claim requires 0. -/
theorem c7_counterexample :
    (appendEvent { query := [], sel := 5, start_index := 2 } "a".data).start_index = 2 ∧
    (2 : Nat) ≠ 0 := by decide

/-- Claim C7 (amended): the Backspace handler resets both the selection and
the start offset to 0; the character-append handler resets only the selection
to 0 and leaves the start offset unchanged — the next viewport computation,
running with selection 0, then clamps the start offset to 0 before anything is
drawn. -/
theorem c7_query_mutation_reset (s : UiState) (ch : List Char)
    (heights : List Nat) (budget : Nat) :
    (backspaceEvent s).sel = 0 ∧
    (backspaceEvent s).start_index = 0 ∧
    (backspaceEvent s).query = s.query.dropLast ∧
    (appendEvent s ch).sel = 0 ∧
    (appendEvent s ch).start_index = s.start_index ∧
    (appendEvent s ch).query = s.query ++ ch ∧
    (computeViewport heights budget (appendEvent s ch).sel
        (appendEvent s ch).start_index).2.1 = 0 := by
  refine ⟨rfl, rfl, rfl, rfl, rfl, rfl, ?_⟩
  show (computeViewport heights budget 0 s.start_index).2.1 = 0
  unfold computeViewport
  simp only [Nat.zero_min]
  split_ifs with h1 h2 <;> omega

/-- Claim C2: `fuzzy_search` keeps exactly the items some tier scores (an item
scoring `None` is absent entirely, not scored 0), stable-sorts them by
descending score (equal scores keep input order), and truncates to at most
`limit` entries. -/
theorem c2_rank_contract (query : String) (items : List LaunchItem) (limit : Nat) :
    Fuzzy.fuzzy_search query items limit
      = (sortDesc (items.filterMap
          (fun it => (Fuzzy.fuzzy_score query it).map (fun sc => (it, sc))))).take limit ∧
    (Fuzzy.fuzzy_search query items limit).length ≤ limit ∧
    (Fuzzy.fuzzy_search query items limit).Pairwise (fun a b => b.2 ≤ a.2) ∧
    (∀ s : Int,
      (sortDesc (items.filterMap
          (fun it => (Fuzzy.fuzzy_score query it).map (fun sc => (it, sc))))).filter
          (fun p => decide (p.2 = s))
        = (items.filterMap
            (fun it => (Fuzzy.fuzzy_score query it).map (fun sc => (it, sc)))).filter
            (fun p => decide (p.2 = s))) ∧
    (∀ (item : LaunchItem) (s : Int),
      (item, s) ∈ sortDesc (items.filterMap
          (fun it => (Fuzzy.fuzzy_score query it).map (fun sc => (it, sc))))
        ↔ item ∈ items ∧ Fuzzy.fuzzy_score query item = some s) ∧
    (∀ (item : LaunchItem) (s : Int), Fuzzy.fuzzy_score query item = none →
      (item, s) ∉ Fuzzy.fuzzy_search query items limit) := by
  have hmem : ∀ (item : LaunchItem) (s : Int),
      (item, s) ∈ sortDesc (items.filterMap
          (fun it => (Fuzzy.fuzzy_score query it).map (fun sc => (it, sc))))
        ↔ item ∈ items ∧ Fuzzy.fuzzy_score query item = some s := by
    intro item s
    rw [(sortDesc_perm _).mem_iff, List.mem_filterMap]
    constructor
    · rintro ⟨a, ha, hmap⟩
      rcases Option.map_eq_some'.mp hmap with ⟨sc, hsc, heq⟩
      obtain ⟨rfl, rfl⟩ : a = item ∧ sc = s := by
        simpa [Prod.ext_iff] using heq
      exact ⟨ha, hsc⟩
    · rintro ⟨hmemi, hsc⟩
      exact ⟨item, hmemi, by simp [hsc]⟩
  refine ⟨rfl, ?_, ?_, ?_, hmem, ?_⟩
  · exact List.length_take_le limit _
  · exact List.Pairwise.sublist (List.take_sublist _ _) (sortDesc_pairwise _)
  · intro s
    exact sortDesc_filter s _
  · intro item s hnone hin
    have hin2 := (List.take_sublist _ _).subset hin
    have := (hmem item s).mp hin2
    rw [this.2] at hnone
    exact Option.noConfusion hnone

/-- Witness for C2: with query "fire" over [firefox, chrome], chrome scores
`None` and is entirely absent from the result at any score. -/
theorem c2_rank_contract_witness :
    (chromeItem, (0 : Int)) ∉ Fuzzy.fuzzy_search "fire" [firefoxItem, chromeItem] 10 :=
  (c2_rank_contract "fire" [firefoxItem, chromeItem] 10).2.2.2.2.2 chromeItem 0 (by decide)

/-- Claim C4: the viewport computation clamps the selection to
`[0, len - 1]` (0 when empty), counts greedily from the start offset how many
rows fit the display budget (at least 1), scrolls down so the selection is the
last visible row when it fell below the window, scrolls up to the selection
when it was above, and finally clamps the start offset to
`[0, max(0, len - visibleCount)]`; with rows `[10,10,10,10]` and budget 25,
selecting 3 from start 0 yields visibleCount 2 and start 2, and selecting 0
afterwards yields start 0. -/
theorem c4_viewport (heights : List Nat) (budget : Nat) (sel start : Nat) :
    (computeViewport heights budget sel start).1 = min sel (heights.length - 1) ∧
    (computeViewport heights budget sel start).2.2
      = max (greedyVisible budget 0 (heights.drop start)) 1 ∧
    1 ≤ (computeViewport heights budget sel start).2.2 ∧
    ((heights.drop start).take (greedyVisible budget 0 (heights.drop start))).sum
      ≤ budget ∧
    (greedyVisible budget 0 (heights.drop start) < (heights.drop start).length →
      budget
        < ((heights.drop start).take (greedyVisible budget 0 (heights.drop start) + 1)).sum) ∧
    (computeViewport heights budget sel start).2.1
      = min (if start + max (greedyVisible budget 0 (heights.drop start)) 1
                ≤ min sel (heights.length - 1)
             then min sel (heights.length - 1)
                - max (greedyVisible budget 0 (heights.drop start)) 1 + 1
             else if min sel (heights.length - 1) < start
             then min sel (heights.length - 1)
             else start)
          (max (heights.length - max (greedyVisible budget 0 (heights.drop start)) 1) 0) ∧
    (computeViewport heights budget sel start).2.1
      ≤ (computeViewport heights budget sel start).1 ∧
    (computeViewport heights budget sel start).2.1
      ≤ heights.length - (computeViewport heights budget sel start).2.2 ∧
    computeViewport [10, 10, 10, 10] 25 3 0 = (3, 2, 2) ∧
    computeViewport [10, 10, 10, 10] 25 0 2 = (0, 0, 2) := by
  refine ⟨rfl, rfl, le_max_right _ _, ?_, ?_, rfl, ?_, ?_, by decide, by decide⟩
  · have := greedyVisible_sum_le budget (heights.drop start) 0 (Nat.zero_le budget)
    omega
  · intro hlt
    have := greedyVisible_tight budget (heights.drop start) 0 hlt
    omega
  · show (computeViewport heights budget sel start).2.1
      ≤ (computeViewport heights budget sel start).1
    simp only [computeViewport]
    split_ifs <;> omega
  · show (computeViewport heights budget sel start).2.1
      ≤ heights.length - (computeViewport heights budget sel start).2.2
    simp only [computeViewport]
    split_ifs <;> omega

/-- Witness for C4 at the worked example: two rows of height 10 fit budget 25
but three do not, and the selection-3 step lands on `(3, 2, 2)`. -/
theorem c4_viewport_witness :
    (25 : Nat)
      < ((([10, 10, 10, 10] : List Nat).drop 0).take
          (greedyVisible 25 0 (([10, 10, 10, 10] : List Nat).drop 0) + 1)).sum ∧
    computeViewport [10, 10, 10, 10] 25 3 0 = (3, 2, 2) := by
  have h := c4_viewport [10, 10, 10, 10] 25 3 0
  exact ⟨h.2.2.2.2.1 (by decide), h.2.2.2.2.2.2.2.2.1⟩

/-- The fuzzy tier adds the type bonus after the base subsequence score: with
bonus 50 the tier result is exactly the bonus-0 result shifted by 50. -/
theorem fuzzy_tail_bonus (q n c : List Char) :
    Fuzzy.fuzzy_tail q n c 50 = Option.map (fun s => s + 50) (Fuzzy.fuzzy_tail q n c 0) := by
  unfold Fuzzy.fuzzy_tail
  simp only [List.foldl_cons, List.foldl_nil]
  cases h1 : Fuzzy.fuzzy_match_score q n <;> cases h2 : Fuzzy.fuzzy_match_score q c <;>
    simp [h1, h2]
  omega

/-- Counterexample for C8: in the empty-query tier both kinds score 0, so the
Application-kind item does not receive 50 points more than the otherwise
identical Command-kind item there. -/
theorem c8_counterexample :
    Fuzzy.fuzzy_score "" appCode = some 0 ∧
    Fuzzy.fuzzy_score "" cmdCode = some 0 ∧
    Fuzzy.fuzzy_score "" appCode
      ≠ Option.map (fun s => s + 50) (Fuzzy.fuzzy_score "" cmdCode) := by decide

/-- Claim C8 (amended): for every non-empty query, an Application-kind item
scores exactly 50 points more than the otherwise-identical Command-kind item
— the type bonus is added after the base value in every matching tier,
including the subsequence fuzzy tier — while the empty-query tier scores 0
for both kinds; "code" items of the two kinds exact-matching query "code"
score 2050 and 2000. -/
theorem c8_type_bonus (query : String) (item : LaunchItem) (hq : query ≠ "") :
    Fuzzy.fuzzy_score query { item with item_type := ItemType.Application }
      = Option.map (fun s => s + 50)
          (Fuzzy.fuzzy_score query { item with item_type := ItemType.Command }) ∧
    Fuzzy.fuzzy_score "code" appCode = some 2050 ∧
    Fuzzy.fuzzy_score "code" cmdCode = some 2000 := by
  refine ⟨?_, by decide, by decide⟩
  have hdesc : ∀ t : ItemType,
      descriptionMatches (toLowerList query) { item with item_type := t }
        = descriptionMatches (toLowerList query) item := fun _ => rfl
  simp only [Fuzzy.fuzzy_score, if_neg hq, typeBonus, hdesc]
  split_ifs <;>
    simp [Fuzzy.EXACT_MATCH_BONUS, Fuzzy.NAME_STARTS_WITH_BONUS,
      Fuzzy.COMMAND_STARTS_WITH_BONUS, Fuzzy.NAME_CONTAINS_BONUS,
      Fuzzy.COMMAND_CONTAINS_BONUS, Fuzzy.DESCRIPTION_CONTAINS_BONUS,
      fuzzy_tail_bonus]

/-- Witness for C8 at the concrete "code" items. -/
theorem c8_type_bonus_witness :
    Fuzzy.fuzzy_score "code" { cmdCode with item_type := ItemType.Application }
      = Option.map (fun s => s + 50)
          (Fuzzy.fuzzy_score "code" { cmdCode with item_type := ItemType.Command }) ∧
    Option.map (fun s => (s + 50 : Int))
        (Fuzzy.fuzzy_score "code" { cmdCode with item_type := ItemType.Command })
      = some 2050 :=
  ⟨(c8_type_bonus "code" cmdCode (by decide)).1, by decide⟩

/-- Claim C9: tier scores are not ordered across items — the consecutive-run
bonus of the subsequence tier grows without bound, so a fuzzy-tier-only item
(14 a characters, an interrupting x, 14 b characters: two 13-step runs,
score 2018) strictly
outranks an item whose lowercased display name equals the query (exact tier,
score 2000). -/
theorem c9_fuzzy_tier_unbounded :
    ∃ (query : String) (fuzzyItem exactItem : LaunchItem) (s1 s2 : Int),
      Fuzzy.fuzzy_score query fuzzyItem = some s1 ∧
      Fuzzy.fuzzy_score query exactItem = some s2 ∧
      toLowerList exactItem.display_name = toLowerList query ∧
      s2 = 2000 + typeBonus exactItem.item_type ∧
      containsSub (toLowerList fuzzyItem.display_name) (toLowerList query) = false ∧
      containsSub (toLowerList fuzzyItem.command) (toLowerList query) = false ∧
      fuzzyItem.description = none ∧
      s2 < s1 :=
  ⟨longRunQuery, longRunFuzzyItem, longRunExactItem, 2018, 2000,
    by decide, by decide, by decide, by decide, by decide, by decide, rfl, by decide⟩

theorem fuzzy_match_go_eq :
    ∀ (ts : List Char) (c : Char) (cs : List Char) (s : Int) (lm : Nat)
      (con : Int) (i : Nat),
      MainSrc.fuzzy_match_go c cs s lm con i ts = Fuzzy.fuzzy_match_go c cs s lm con i ts := by
  intro ts
  induction ts with
  | nil => intro c cs s lm con i; rfl
  | cons tc ts ih =>
    intro c cs s lm con i
    simp only [MainSrc.fuzzy_match_go, Fuzzy.fuzzy_match_go]
    by_cases h : tc = c
    · rw [if_pos h, if_pos h]
      cases cs with
      | nil => rfl
      | cons c2 cs2 => exact ih c2 cs2 _ i _ (i + 1)
    · rw [if_neg h, if_neg h]
      exact ih c cs s lm con (i + 1)

theorem fuzzy_match_score_eq (query target : List Char) :
    MainSrc.fuzzy_match_score query target = Fuzzy.fuzzy_match_score query target := by
  cases query with
  | nil => rfl
  | cons c cs => exact fuzzy_match_go_eq target c cs 200 0 0 0

theorem fuzzy_tail_eq (q n c : List Char) (tb : Int) :
    MainSrc.fuzzy_tail q n c tb = Fuzzy.fuzzy_tail q n c tb := by
  unfold MainSrc.fuzzy_tail Fuzzy.fuzzy_tail
  simp only [fuzzy_match_score_eq]

theorem fuzzy_score_eq (query : String) (item : LaunchItem) :
    MainSrc.fuzzy_score query item = Fuzzy.fuzzy_score query item := by
  unfold MainSrc.fuzzy_score Fuzzy.fuzzy_score
  simp only [Fuzzy.EXACT_MATCH_BONUS, Fuzzy.NAME_STARTS_WITH_BONUS,
    Fuzzy.COMMAND_STARTS_WITH_BONUS, Fuzzy.NAME_CONTAINS_BONUS,
    Fuzzy.COMMAND_CONTAINS_BONUS, Fuzzy.DESCRIPTION_CONTAINS_BONUS, fuzzy_tail_eq]

/-- Claim C10: the ranking engine defined inside `src/main.rs` and the one in
`src/fuzzy.rs` are extensionally equal — for every query, item list and limit
they return identical scored, ordered, truncated results. -/
theorem c10_engines_equal (query : String) (items : List LaunchItem) (limit : Nat) :
    MainSrc.fuzzy_search query items limit = Fuzzy.fuzzy_search query items limit := by
  unfold MainSrc.fuzzy_search Fuzzy.fuzzy_search
  simp only [fuzzy_score_eq]

end Rufi
